import Mathlib

/-!
Shallow embedding of `pov_fabric.py` (pov-fabric-helpers).

The module is a collection of Fabric deployment helpers.  Remote execution is
modelled by an explicit "world" record per component (what the remote host
would answer to the read-only checks) together with a trace of the commands
the helper issues (`Cmd`).  Aborts and raised exceptions are modelled with
`Except String`.  Python dictionaries keyed by strings are modelled as
association lists with in-place overwrite (`dictSet`), which preserves the
key-ordering and last-write-wins semantics of `dict.__setitem__` and
`dict.update`.
-/

namespace PovFabric

/-- Single-quote character, written via its code point. -/
def sqc : Char := Char.ofNat 39

/-- Single-quote as a one-character string. -/
def sq : String := String.mk [sqc]

/-- Opening curly brace character. -/
def obr : Char := Char.ofNat 123

/-- Closing curly brace character. -/
def cbr : Char := Char.ofNat 125

/-- Characters stripped by Python `str.strip()` with no argument. -/
def isPyWS (c : Char) : Bool :=
  c = ' ' || c = Char.ofNat 9 || c = Char.ofNat 10 || c = Char.ofNat 13 ||
  c = Char.ofNat 11 || c = Char.ofNat 12

/-- Python `str.strip()`: drop leading and trailing whitespace. -/
def pyStrip (s : String) : String :=
  String.mk (((s.data.dropWhile isPyWS).reverse.dropWhile isPyWS).reverse)

/-- The characters `pipes.quote` considers safe (Python 2.7 `pipes._safechars`). -/
def shSafeChars : List Char :=
  "abcdefghijklmnopqrstuvwxyzABCDEFGHIJKLMNOPQRSTUVWXYZ0123456789@%_-+=:,./".data

/-- Membership in `pipes._safechars`. -/
def isShSafe (c : Char) : Bool := shSafeChars.contains c

/-- Python 2 `pipes.quote`: return the string unchanged when every character is
safe (the empty string becomes a pair of single quotes); otherwise wrap in
single quotes, replacing each embedded single quote by the five-character
sequence quote, double-quote, quote, double-quote, quote. -/
def shQuote (s : String) : String :=
  if s.data.all isShSafe then
    if s = "" then sq ++ sq else s
  else
    sq ++ String.join (s.data.map (fun c =>
      if c = sqc then sq ++ "\"" ++ sq ++ "\"" ++ sq else String.mk [c])) ++ sq

/-- Python `d[k] = v` on an association list: overwrite in place if the key is
present, append otherwise. -/
def dictSet {β : Type} (d : List (String × β)) (k : String) (v : β) :
    List (String × β) :=
  match d with
  | [] => [(k, v)]
  | (k0, v0) :: rest => if k0 = k then (k, v) :: rest else (k0, v0) :: dictSet rest k v

/-- Python `d.get(k)` / `k in d` on an association list. -/
def dlookup {β : Type} (k : String) : List (String × β) → Option β
  | [] => none
  | (k0, v) :: rest => if k0 = k then some v else dlookup k rest

/-- Python `d.update(l)`: fold `dictSet` over the entries of `l`. -/
def dictUpdate {β : Type} (d : List (String × β)) (l : List (String × β)) :
    List (String × β) :=
  l.foldl (fun acc p => dictSet acc p.1 p.2) d

/-- The keys of an association list are pairwise distinct (always true of the
Python dictionaries this models). -/
def NodupKeys {β : Type} (l : List (String × β)) : Prop :=
  (l.map Prod.fst).Nodup

instance {β : Type} (l : List (String × β)) : Decidable (NodupKeys l) := by
  unfold NodupKeys; infer_instance

/-- Python `sorted` on a list of strings. -/
def sortStrings (l : List String) : List String :=
  List.insertionSort (fun a b => a ≤ b) l

/-- A remote command issued through the execution framework: `run`, plain
`sudo`, `sudo` inside a `with cd(dir)` block, or `sudo(..., user=u)`. -/
inductive Cmd : Type where
  | run (cmd : String)
  | sudo (cmd : String)
  | sudoIn (dir : String) (cmd : String)
  | sudoAs (user : String) (cmd : String)
deriving DecidableEq

/-- A command that changes remote state: everything except a plain `run` query. -/
def Cmd.isMutating : Cmd → Bool
  | Cmd.run _ => false
  | _ => true

/-! ### System management helpers (`ensure_apt_not_outdated`, `package_installed`,
`install_packages`) -/

/-- Remote answers consulted by the apt helpers: the stdout of the
`dpkg-query` status command for a given query string, and the stdout of the
`find` freshness probe on `/var/lib/apt/lists`. -/
structure AptWorld : Type where
  dpkgStatus : String → String
  aptFindOut : String

/-- The dpkg status line denoting an installed package. -/
def statusInstalled : String := "install ok installed"

/-- The `dpkg-query` command text issued by `package_installed`. -/
def dpkgQueryCmd (p : String) : String :=
  "dpkg-query -W --showformat=" ++ sq ++ "$\x7bStatus\x7d" ++ sq ++ " " ++ p

/-- Source `package_installed`: compare the `dpkg-query` output with the
installed status line. -/
def packageInstalled (w : AptWorld) (p : String) : Bool :=
  w.dpkgStatus p == statusInstalled

/-- The `find` probe issued by `ensure_apt_not_outdated`. -/
def findAptCmd : String := "find /var/lib/apt/lists -maxdepth 0 -mtime -1"

/-- Source `ensure_apt_not_outdated`: probe the package-list mtime, and run
`apt-get update -qq` only when the probe output is empty (falsy). -/
def ensureAptNotOutdated (w : AptWorld) : List Cmd :=
  Cmd.run findAptCmd :: (if w.aptFindOut = "" then [Cmd.sudo "apt-get update -qq"] else [])

/-- One positional argument of `install_packages(*packages)`: either a string
or a sequence of strings. -/
inductive PkgArg : Type where
  | str (s : String)
  | seq (l : List String)
deriving DecidableEq

/-- Flatten one positional argument to a string.  The `seq` case is
unreachable for the documented call shapes (a list or tuple is only accepted
as the sole positional argument; elsewhere the source raises at
`" ".join`). -/
def flatArg : PkgArg → String
  | PkgArg.str s => s
  | PkgArg.seq l => String.intercalate " " l

/-- Source normalization step of `install_packages`: a sole non-string
positional argument is unpacked; any other argument vector is kept as is
(in particular a single space-separated string is NOT split). -/
def normalizePackages : List PkgArg → List String
  | [PkgArg.seq l] => l
  | args => args.map flatArg

/-- The documented call shapes of `install_packages`: either one sequence
argument, or every positional argument a string. -/
def wfArgs : List PkgArg → Bool
  | [PkgArg.seq _] => true
  | args => args.all (fun a => match a with | PkgArg.str _ => true | PkgArg.seq _ => false)

/-- Keyword-argument keys left after popping `missing_only` and
`interactive`. -/
def extraKeys (kw : List (String × Bool)) : List String :=
  (kw.map Prod.fst).filter (fun k => !(k == "missing_only") && !(k == "interactive"))

/-- Source `kw.pop('missing_only', True)`. -/
def missingOnly (kw : List (String × Bool)) : Bool :=
  (dlookup "missing_only" kw).getD true

/-- Source `kw.pop('interactive', False)`. -/
def interactiveOpt (kw : List (String × Bool)) : Bool :=
  (dlookup "interactive" kw).getD false

/-- The apt install command line built by `install_packages`. -/
def installCmd (kw : List (String × Bool)) (pkgs : List String) : String :=
  let c := "apt-get install -qq -y " ++ String.intercalate " " pkgs
  if interactiveOpt kw then c else "DEBIAN_FRONTEND=noninteractive " ++ c

/-- Packages surviving the `missing_only` filter. -/
def remainingPackages (w : AptWorld) (kw : List (String × Bool)) (pkgs : List String) :
    List String :=
  if missingOnly kw then pkgs.filter (fun p => !(packageInstalled w p)) else pkgs

/-- Source `install_packages`: reject unknown keyword arguments with a
`TypeError` naming the sorted offending keys; normalize the positional
arguments; under `missing_only` query `package_installed` for each name and
keep the not-installed ones; if none remain, return with no further command;
otherwise refresh the apt cache if stale and issue one batched
`apt-get install`. -/
def installPackages (w : AptWorld) (packages : List PkgArg) (kw : List (String × Bool)) :
    Except String (List Cmd) :=
  if extraKeys kw = [] then
    let pkgs := normalizePackages packages
    let queries := if missingOnly kw then pkgs.map (fun p => Cmd.run (dpkgQueryCmd p)) else []
    let remaining := remainingPackages w kw pkgs
    if remaining = [] then Except.ok queries
    else Except.ok (queries ++ ensureAptNotOutdated w ++ [Cmd.sudo (installCmd kw remaining)])
  else
    Except.error ("unexpected keyword arguments: " ++
      String.intercalate ", " (sortStrings (extraKeys kw)))

/-! ### Git synchronization (`git_clone`) -/

/-- Remote answers consulted by `git_clone`: the value of `$SSH_AUTH_SOCK`,
whether `work_dir/.git` exists, whether each issued git command succeeds, and
the stdout of `git describe --always`. -/
structure GitWorld : Type where
  sshAuthSock : String
  dotGitExists : Bool
  fetchOk : Bool
  resetOk : Bool
  cloneOk : Bool
  describeOk : Bool
  describeOut : String

/-- Result of a helper: the commit string on success, or an abort (the
execution framework aborts the run when a remote command exits non-zero). -/
inductive Outcome : Type where
  | ok (commit : String)
  | aborted
deriving DecidableEq

/-- Final step of `git_clone`: `git describe --always` inside the work dir,
stripped. -/
def gitDescribe (w : GitWorld) (workDir : String) (t : List Cmd) : List Cmd × Outcome :=
  let c := Cmd.sudoIn workDir "git describe --always"
  if w.describeOk then (t ++ [c], Outcome.ok (pyStrip w.describeOut))
  else (t ++ [c], Outcome.aborted)

/-- Source `git_clone`: capture `$SSH_AUTH_SOCK`; if the destination has a
`.git` AND `force` is set, fetch then reset to `origin/master` inside the work
dir; in every other case (including an existing `.git` with `force` unset)
issue a `git clone`; finally read back `git describe --always` stripped.  A
failing remote command aborts. -/
def gitClone (w : GitWorld) (gitRepo workDir : String) (force : Bool) :
    List Cmd × Outcome :=
  let t0 := [Cmd.run "echo $SSH_AUTH_SOCK"]
  if w.dotGitExists && force then
    let fetchCmd := Cmd.sudoIn workDir ("SSH_AUTH_SOCK=" ++ w.sshAuthSock ++ " git fetch")
    if !w.fetchOk then (t0 ++ [fetchCmd], Outcome.aborted)
    else
      let resetCmd := Cmd.sudoIn workDir "git reset origin/master"
      if !w.resetOk then (t0 ++ [fetchCmd, resetCmd], Outcome.aborted)
      else gitDescribe w workDir (t0 ++ [fetchCmd, resetCmd])
  else
    let cloneCmd := Cmd.sudo ("SSH_AUTH_SOCK=" ++ w.sshAuthSock ++ " git clone " ++
      gitRepo ++ " " ++ workDir)
    if !w.cloneOk then (t0 ++ [cloneCmd], Outcome.aborted)
    else gitDescribe w workDir (t0 ++ [cloneCmd])

/-! ### Changelog (`changelog`) -/

/-- Python `str.format(**context)` restricted to the subset the module uses:
named placeholders without conversion or format spec, with doubled braces as
escapes.  A missing key raises `KeyError`; stray braces raise `ValueError`. -/
def pyFormatGo (ctx : List (String × String)) :
    List Char → Option (List Char) → List Char → Except String String
  | [], none, acc => Except.ok (String.mk acc.reverse)
  | [], some _, _ =>
    Except.error ("ValueError: Single " ++ sq ++ String.mk [obr] ++ sq ++
      " encountered in format string")
  | c :: cs, some f, acc =>
    if c = cbr then
      match dlookup (String.mk f.reverse) ctx with
      | some v => pyFormatGo ctx cs none (v.data.reverse ++ acc)
      | none => Except.error ("KeyError: " ++ sq ++ String.mk f.reverse ++ sq)
    else pyFormatGo ctx cs (some (c :: f)) acc
  | c :: cs, none, acc =>
    if c = obr then
      match cs with
      | c2 :: cs2 =>
        if c2 = obr then pyFormatGo ctx cs2 none (obr :: acc)
        else pyFormatGo ctx (c2 :: cs2) (some []) acc
      | [] =>
        Except.error ("ValueError: Single " ++ sq ++ String.mk [obr] ++ sq ++
          " encountered in format string")
    else if c = cbr then
      match cs with
      | c2 :: cs2 =>
        if c2 = cbr then pyFormatGo ctx cs2 none (cbr :: acc)
        else Except.error ("ValueError: Single " ++ sq ++ String.mk [cbr] ++ sq ++
          " encountered in format string")
      | [] =>
        Except.error ("ValueError: Single " ++ sq ++ String.mk [cbr] ++ sq ++
          " encountered in format string")
    else pyFormatGo ctx cs none (c :: acc)
termination_by l _ _ => l.length

/-- Python `message.format(**context)`. -/
def pyFormat (s : String) (ctx : List (String × String)) : Except String String :=
  pyFormatGo ctx s.data none []

/-- The message `changelog` ends up passing to the script: formatted when a
context is given, unchanged otherwise. -/
def fmtMsg (m : String) : Option (List (String × String)) → Except String String
  | none => Except.ok m
  | some ctx => pyFormat m ctx

/-- Remote answer consulted by `changelog`: whether
`/usr/sbin/new-changelog-entry` exists. -/
structure ClWorld : Type where
  scriptExists : Bool

/-- Source `changelog`: when the script exists or `optional` is false, build
`new-changelog-entry`, add ` -a` when appending, format the message when a
context is given, quote it, and run the command as root; otherwise do
nothing. -/
def changelog (w : ClWorld) (message : String) (context : Option (List (String × String)))
    (append optional : Bool) : Except String (List Cmd) :=
  if w.scriptExists || !optional then
    let cmd := "new-changelog-entry"
    let cmd := if append then cmd ++ " -a" else cmd
    match fmtMsg message context with
    | Except.error e => Except.error e
    | Except.ok message => Except.ok [Cmd.sudoAs "root" (cmd ++ " " ++ shQuote message)]
  else Except.ok []

/-! ### Instance construction (`Instance.__init__`, `Instance.with_params`) -/

/-- Source `Instance.__init__`: set `name` and `host`, then
`self.__dict__.update(kwargs)` (keyword entries overwrite the positional
assignments).  The instance is its attribute dictionary. -/
def instanceInit {β : Type} (name host : β) (kwargs : List (String × β)) :
    List (String × β) :=
  dictUpdate (dictSet (dictSet [] "name" name) "host" host) kwargs

/-- The `TypeError` message for a missing required keyword. -/
def reqMsg (k : String) : String :=
  "__init__() requires a keyword argument " ++ sq ++ k ++ sq

/-- The `TypeError` message for an unexpected keyword. -/
def unexpMsg (k : String) : String :=
  "__init__() got an unexpected keyword argument " ++ sq ++ k ++ sq

/-- First parameter in declaration order that is marked `REQUIRED` (modelled
as `none`; a declared default is `some v`) and has no caller-supplied
keyword value. -/
def firstReqMissing {α : Type} (kw : List (String × α)) :
    List (String × Option α) → Option String
  | [] => none
  | (k, v) :: rest =>
    if v.isNone && (dlookup k kw).isNone then some k else firstReqMissing kw rest

/-- First caller-supplied keyword that is not a declared parameter. -/
def firstUnknown {α : Type} (params : List (String × Option α)) :
    List (String × α) → Option String
  | [] => none
  | (k, _) :: rest =>
    if (dlookup k params).isNone then some k else firstUnknown params rest

/-- First loop of the generated constructor: for each declared parameter,
raise if it is `REQUIRED` and absent from the keywords, else store the
declared value (the sentinel included; overwritten by the second loop). -/
def wpLoop1 {α : Type} (kw : List (String × α)) :
    List (String × Option α) → List (String × Option α) →
    Except String (List (String × Option α))
  | [], d => Except.ok d
  | (k, v) :: rest, d =>
    if v.isNone && (dlookup k kw).isNone then Except.error (reqMsg k)
    else wpLoop1 kw rest (dictSet d k v)

/-- Second loop of the generated constructor: for each caller keyword, raise
if it is not a declared parameter, else store the supplied value. -/
def wpLoop2 {α : Type} (params : List (String × Option α)) :
    List (String × α) → List (String × Option α) →
    Except String (List (String × Option α))
  | [], d => Except.ok d
  | (k, v) :: rest, d =>
    if (dlookup k params).isNone then Except.error (unexpMsg k)
    else wpLoop2 params rest (dictSet d k (some v))

/-- Caller keywords as dictionary entries (plain values, never the
sentinel). -/
def kwLift {α : Type} (kw : List (String × α)) : List (String × Option α) :=
  kw.map (fun p => (p.1, some p.2))

/-- Source `Instance.with_params` generated `__init__`: call the base
constructor with `name` and `host`, then run the two validation loops. -/
def withParamsInit {α : Type} (params : List (String × Option α)) (name host : α)
    (kw : List (String × α)) : Except String (List (String × Option α)) :=
  match wpLoop1 kw params (instanceInit (some name) (some host) []) with
  | Except.error e => Except.error e
  | Except.ok d => wpLoop2 params kw d

/-! ### Instance registry (`_define_instance`, `get_instance`) -/

/-- The process-wide Fabric `env` object, as far as this module reads it:
the lazily created `env.instances` dictionary, the recorded current instance
name `env.instance` (named `currentInstance` here because `instance` is a
Lean keyword), and `env.command`.  Instance objects are opaque to the
registry, which only stores them under `instance.name`. -/
structure Env (ι : Type) : Type where
  instances : Option (List (String × ι))
  currentInstance : Option String
  command : String

/-- Source `_define_instance`: create `env.instances` on demand, abort when
the name is already registered, insert otherwise.  `nm` is `instance.name`. -/
def defineInstance {ι : Type} (env : Env ι) (nm : String) (inst : ι) :
    Except String (Env ι) :=
  let instances := env.instances.getD []
  if (dlookup nm instances).isSome then
    Except.error ("Instance " ++ nm ++ " is already defined.")
  else
    Except.ok { env with instances := some (dictSet instances nm inst) }

/-- Sorted known instance names (`sorted(getattr(env, 'instances', {}))`). -/
def knownNames {ι : Type} (env : Env ι) : List String :=
  sortStrings ((env.instances.getD []).map Prod.fst)

/-- The abort message of `get_instance` when the selection cannot be
resolved. -/
def helpMsg {ι : Type} (env : Env ι) : String :=
  "Please specify an instance (" ++ String.intercalate ", " (knownNames env) ++
  "), e.g.\n\n  fab " ++ (knownNames env).headD "" ++ " " ++ env.command

/-- Source `get_instance`: abort when no instances are defined; otherwise use
the explicit name unless it is falsy (absent or empty), falling back to
`env.instance`; look the resulting key up in `env.instances` and abort with
the help message on a miss (a missing key, the unresolved `None` key
included, raises `KeyError`). -/
def getInstance {ι : Type} (env : Env ι) (instName : Option String) :
    Except String ι :=
  if knownNames env = [] then
    Except.error "There are no instances defined in env.instances."
  else
    let key := match instName with
      | none => env.currentInstance
      | some s => if s = "" then env.currentInstance else some s
    match key.bind (fun n => dlookup n (env.instances.getD [])) with
    | some inst => Except.ok inst
    | none => Except.error (helpMsg env)

/-! ### Concrete worlds used by counterexamples and witnesses -/

/-- A host whose work dir already holds a checkout: `.git` exists and a fresh
`git clone` into the directory fails. -/
def staleCheckoutWorld : GitWorld :=
  ⟨"/tmp/ssh-agent.sock", true, true, true, false, true, "v1.2-4-gdeadbee\n"⟩

/-- A host with an empty destination where the clone succeeds. -/
def freshCloneWorld : GitWorld :=
  ⟨"/tmp/agent.sock", false, true, true, true, true, " v2.0-1-gabc123 \n"⟩

/-- A host where `foo` and `bar` are installed; querying dpkg for the unsplit
string `foo bar` yields the two concatenated status lines, which is not the
single-package installed status. -/
def dualStatusWorld : AptWorld :=
  ⟨fun p => if p = "foo" || p = "bar" then statusInstalled
            else statusInstalled ++ statusInstalled,
   "lock"⟩

/-- A host where every queried package reports installed. -/
def allInstalledWorld : AptWorld :=
  ⟨fun _ => statusInstalled, "lock"⟩

/-! ## Dictionary lemmas -/

theorem dlookup_dictSet_self {β : Type} (d : List (String × β)) (k : String) (v : β) :
    dlookup k (dictSet d k v) = some v := by
  induction d with
  | nil => simp [dictSet, dlookup]
  | cons p rest ih =>
    obtain ⟨k0, v0⟩ := p
    by_cases h : k0 = k
    · subst h; simp [dictSet, dlookup]
    · simp [dictSet, dlookup, h, ih]

theorem dlookup_dictSet_ne {β : Type} (d : List (String × β)) (k k' : String) (v : β)
    (h : k' ≠ k) : dlookup k (dictSet d k' v) = dlookup k d := by
  induction d with
  | nil => simp [dictSet, dlookup, h]
  | cons p rest ih =>
    obtain ⟨k0, v0⟩ := p
    by_cases h0 : k0 = k'
    · subst h0; simp [dictSet, dlookup, h]
    · simp only [dictSet, if_neg h0, dlookup]
      by_cases h1 : k0 = k
      · simp [h1]
      · simp [h1, ih]

theorem dlookup_eq_none {β : Type} (k : String) (l : List (String × β)) :
    dlookup k l = none ↔ k ∉ l.map Prod.fst := by
  induction l with
  | nil => simp [dlookup]
  | cons p rest ih =>
    obtain ⟨k0, v0⟩ := p
    by_cases h : k0 = k
    · subst h; simp [dlookup]
    · simp [dlookup, h, ih, Ne.symm h]

theorem dlookup_some_mem {β : Type} {k : String} {v : β} {l : List (String × β)}
    (h : dlookup k l = some v) : (k, v) ∈ l := by
  induction l with
  | nil => simp [dlookup] at h
  | cons p rest ih =>
    obtain ⟨k0, v0⟩ := p
    by_cases h0 : k0 = k
    · subst h0
      have hv : v0 = v := by simpa [dlookup] using h
      subst hv
      exact List.mem_cons_self _ _
    · simp only [dlookup, if_neg h0] at h
      exact List.mem_cons_of_mem _ (ih h)

theorem dlookup_dictUpdate_not_mem {β : Type} (d l : List (String × β)) (k : String)
    (h : k ∉ l.map Prod.fst) : dlookup k (dictUpdate d l) = dlookup k d := by
  induction l generalizing d with
  | nil => simp [dictUpdate]
  | cons p rest ih =>
    obtain ⟨k0, v0⟩ := p
    simp only [List.map_cons, List.mem_cons] at h
    push_neg at h
    have hstep : dictUpdate d ((k0, v0) :: rest) = dictUpdate (dictSet d k0 v0) rest := rfl
    rw [hstep, ih _ h.2, dlookup_dictSet_ne _ _ _ _ (fun he => h.1 he.symm)]

theorem dlookup_dictUpdate_mem {β : Type} (d : List (String × β))
    {l : List (String × β)} {k : String} {v : β}
    (hnd : NodupKeys l) (h : (k, v) ∈ l) : dlookup k (dictUpdate d l) = some v := by
  induction l generalizing d with
  | nil => simp at h
  | cons p rest ih =>
    obtain ⟨k0, v0⟩ := p
    have hstep : dictUpdate d ((k0, v0) :: rest) = dictUpdate (dictSet d k0 v0) rest := rfl
    unfold NodupKeys at hnd
    simp only [List.map_cons, List.nodup_cons] at hnd
    rcases List.mem_cons.mp h with hh | ht
    · injection hh with h1 h2
      subst h1; subst h2
      rw [hstep, dlookup_dictUpdate_not_mem _ _ _ hnd.1, dlookup_dictSet_self]
    · rw [hstep]
      exact ih (dictSet d k0 v0) hnd.2 ht

/-! ## Sorting lemmas -/

theorem sortStrings_sorted (l : List String) :
    List.Sorted (fun a b => a ≤ b) (sortStrings l) :=
  List.sorted_insertionSort _ l

theorem sortStrings_perm (l : List String) : List.Perm (sortStrings l) l :=
  List.perm_insertionSort _ l

theorem sortStrings_ne_nil {l : List String} (h : l ≠ []) : sortStrings l ≠ [] := by
  intro hs
  apply h
  have hp := sortStrings_perm l
  rw [hs] at hp
  exact hp.symm.eq_nil

/-! ## Claim C1 -/

/-- Claim C1 counterexample: with an existing `.git` working tree in the
destination and `force=False`, `git_clone` does NOT fail before issuing
commands — it falls into the clone branch and issues a `git clone` command
(which then fails against the existing checkout and aborts the run).  This
refutes the claim that the operation fails without issuing any fetch, reset,
or clone command. -/
theorem git_clone_noforce_counterexample :
    (gitClone staleCheckoutWorld "git@example.com:proj.git" "/srv/proj" false).2 =
      Outcome.aborted ∧
    Cmd.sudo "SSH_AUTH_SOCK=/tmp/ssh-agent.sock git clone git@example.com:proj.git /srv/proj" ∈
      (gitClone staleCheckoutWorld "git@example.com:proj.git" "/srv/proj" false).1 := by
  exact ⟨rfl, by decide⟩

/-- Claim C1 (amended): for every destination that already contains a `.git`
working tree and `force=False`, `git_clone` issues no fetch and no reset
command (no command inside the work dir at all); it issues exactly the
SSH-socket probe and one `git clone` command, and — the clone failing against
the existing checkout — the run aborts. -/
theorem git_clone_noforce_existing_checkout (w : GitWorld) (repo dir : String)
    (hg : w.dotGitExists = true) (hc : w.cloneOk = false) :
    w.dotGitExists = true ∧
    gitClone w repo dir false =
      ([Cmd.run "echo $SSH_AUTH_SOCK",
        Cmd.sudo ("SSH_AUTH_SOCK=" ++ w.sshAuthSock ++ " git clone " ++ repo ++ " " ++ dir)],
       Outcome.aborted) ∧
    (∀ d c, Cmd.sudoIn d c ∉ (gitClone w repo dir false).1) := by
  have h1 : gitClone w repo dir false =
      ([Cmd.run "echo $SSH_AUTH_SOCK",
        Cmd.sudo ("SSH_AUTH_SOCK=" ++ w.sshAuthSock ++ " git clone " ++ repo ++ " " ++ dir)],
       Outcome.aborted) := by
    simp [gitClone, hc]
  refine ⟨hg, h1, ?_⟩
  intro d c
  rw [h1]
  simp

/-- Claim C1 witness: the amended theorem at a concrete world. -/
theorem git_clone_noforce_existing_checkout_witness :
    staleCheckoutWorld.dotGitExists = true ∧
    gitClone staleCheckoutWorld "r" "/w" false =
      ([Cmd.run "echo $SSH_AUTH_SOCK",
        Cmd.sudo ("SSH_AUTH_SOCK=" ++ staleCheckoutWorld.sshAuthSock ++
          " git clone " ++ "r" ++ " " ++ "/w")],
       Outcome.aborted) ∧
    (∀ d c, Cmd.sudoIn d c ∉ (gitClone staleCheckoutWorld "r" "/w" false).1) :=
  git_clone_noforce_existing_checkout staleCheckoutWorld "r" "/w" rfl rfl

/-! ## Claim C9 -/

/-- Claim C9: on every successful run of `git_clone` (clone path or
force-update path alike), the returned value is the stripped output of
`git describe --always` run inside the destination directory — the last
command issued — and, `git describe --always` printing a non-blank
descriptor, it is non-empty. -/
theorem git_clone_commit_descriptor_spec (w : GitWorld) (repo dir : String) (force : Bool)
    (tr : List Cmd) (s : String)
    (h : gitClone w repo dir force = (tr, Outcome.ok s))
    (hne : pyStrip w.describeOut ≠ "") :
    s = pyStrip w.describeOut ∧ s ≠ "" ∧
    tr.getLast? = some (Cmd.sudoIn dir "git describe --always") := by
  have hinv : s = pyStrip w.describeOut ∧
      tr.getLast? = some (Cmd.sudoIn dir "git describe --always") := by
    simp only [gitClone, gitDescribe] at h
    split at h
    · split at h
      · simp [Prod.ext_iff] at h
      · split at h
        · simp [Prod.ext_iff] at h
        · split at h
          · rw [Prod.mk.injEq] at h
            obtain ⟨h1, h2⟩ := h
            injection h2 with h2
            exact ⟨h2.symm, by rw [← h1, List.getLast?_concat]⟩
          · simp [Prod.ext_iff] at h
    · split at h
      · simp [Prod.ext_iff] at h
      · split at h
        · rw [Prod.mk.injEq] at h
          obtain ⟨h1, h2⟩ := h
          injection h2 with h2
          exact ⟨h2.symm, by rw [← h1, List.getLast?_concat]⟩
        · simp [Prod.ext_iff] at h
  exact ⟨hinv.1, by rw [hinv.1]; exact hne, hinv.2⟩

/-- Claim C9 witness: a concrete successful clone returns the stripped,
non-empty descriptor and ends with the describe command. -/
theorem git_clone_commit_descriptor_witness :
    "v2.0-1-gabc123" = pyStrip freshCloneWorld.describeOut ∧
    "v2.0-1-gabc123" ≠ "" ∧
    (gitClone freshCloneWorld "r" "/w" false).1.getLast? =
      some (Cmd.sudoIn "/w" "git describe --always") :=
  git_clone_commit_descriptor_spec freshCloneWorld "r" "/w" false
    (gitClone freshCloneWorld "r" "/w" false).1 "v2.0-1-gabc123" (by decide) (by decide)

/-! ## Claim C2 -/

/-- Claim C2 evaluation: the three documented call shapes are NOT normalized
to the same package sequence.  A single space-separated string is kept whole,
so `package_installed` is queried with the unsplit string `foo bar`; with
`foo` and `bar` both installed (and the default `missing_only=True`), the
string shape still refreshes the cache and issues an install command while
the other two shapes issue no command beyond the status queries. -/
theorem install_packages_shape_divergence :
    normalizePackages [PkgArg.str "foo bar"] = ["foo bar"] ∧
    normalizePackages [PkgArg.str "foo", PkgArg.str "bar"] = ["foo", "bar"] ∧
    normalizePackages [PkgArg.seq ["foo", "bar"]] = ["foo", "bar"] ∧
    normalizePackages [PkgArg.str "foo bar"] ≠
      normalizePackages [PkgArg.str "foo", PkgArg.str "bar"] ∧
    installPackages dualStatusWorld [PkgArg.str "foo bar"] [] =
      Except.ok [Cmd.run (dpkgQueryCmd "foo bar"), Cmd.run findAptCmd,
        Cmd.sudo "DEBIAN_FRONTEND=noninteractive apt-get install -qq -y foo bar"] ∧
    installPackages dualStatusWorld [PkgArg.str "foo", PkgArg.str "bar"] [] =
      Except.ok [Cmd.run (dpkgQueryCmd "foo"), Cmd.run (dpkgQueryCmd "bar")] ∧
    installPackages dualStatusWorld [PkgArg.seq ["foo", "bar"]] [] =
      Except.ok [Cmd.run (dpkgQueryCmd "foo"), Cmd.run (dpkgQueryCmd "bar")] := by
  exact ⟨rfl, rfl, rfl, by decide, rfl, rfl, rfl⟩

/-! ## Claim C6 -/

/-- Claim C6: with `missing_only` resolving to true and every normalized
package reported installed, `install_packages` returns after the read-only
status queries: the resulting trace is exactly the `dpkg-query` probes, so no
cache refresh and no install command (no mutating command at all) is
issued. -/
theorem install_packages_missing_only_noop (w : AptWorld) (packages : List PkgArg)
    (kw : List (String × Bool))
    (hkw : extraKeys kw = [])
    (hmo : missingOnly kw = true)
    (hins : ∀ p ∈ normalizePackages packages, packageInstalled w p = true) :
    installPackages w packages kw =
      Except.ok ((normalizePackages packages).map (fun p => Cmd.run (dpkgQueryCmd p))) ∧
    ∀ c ∈ (normalizePackages packages).map (fun p => Cmd.run (dpkgQueryCmd p)),
      c.isMutating = false := by
  have hrem : remainingPackages w kw (normalizePackages packages) = [] := by
    rw [remainingPackages, if_pos hmo]
    rw [List.filter_eq_nil_iff]
    intro p hp
    simp [hins p hp]
  constructor
  · simp [installPackages, hkw, hmo, hrem]
  · intro c hc
    simp only [List.mem_map] at hc
    obtain ⟨p, _, rfl⟩ := hc
    rfl

/-- Claim C6 witness. -/
theorem install_packages_missing_only_noop_witness :
    installPackages allInstalledWorld [PkgArg.str "vim"] [("missing_only", true)] =
      Except.ok [Cmd.run (dpkgQueryCmd "vim")] := by
  have h := install_packages_missing_only_noop allInstalledWorld [PkgArg.str "vim"]
    [("missing_only", true)] (by decide) (by decide) (by decide)
  exact h.1

/-! ## Claim C7 -/

/-- Claim C7: a keyword argument other than `missing_only` or `interactive`
makes `install_packages` raise a `TypeError` naming exactly the offending
keys (sorted), and no command trace is produced. -/
theorem install_packages_unknown_kw_spec (w : AptWorld) (packages : List PkgArg)
    (kw : List (String × Bool)) (h : extraKeys kw ≠ []) :
    installPackages w packages kw =
      Except.error ("unexpected keyword arguments: " ++
        String.intercalate ", " (sortStrings (extraKeys kw))) ∧
    (∀ tr, installPackages w packages kw ≠ Except.ok tr) ∧
    List.Sorted (fun a b => a ≤ b) (sortStrings (extraKeys kw)) ∧
    List.Perm (sortStrings (extraKeys kw)) (extraKeys kw) ∧
    ∀ k, k ∈ extraKeys kw ↔
      (k ∈ kw.map Prod.fst ∧ k ≠ "missing_only" ∧ k ≠ "interactive") := by
  have h1 : installPackages w packages kw =
      Except.error ("unexpected keyword arguments: " ++
        String.intercalate ", " (sortStrings (extraKeys kw))) := by
    simp [installPackages, h]
  refine ⟨h1, ?_, sortStrings_sorted _, sortStrings_perm _, ?_⟩
  · intro tr hcon
    rw [h1] at hcon
    exact Except.noConfusion hcon
  · intro k
    simp [extraKeys, List.mem_filter]

/-- Claim C7 witness. -/
theorem install_packages_unknown_kw_witness :
    installPackages allInstalledWorld [PkgArg.str "vim"] [("zone", true)] =
      Except.error "unexpected keyword arguments: zone" := by
  have h := install_packages_unknown_kw_spec allInstalledWorld [PkgArg.str "vim"]
    [("zone", true)] (by decide)
  exact h.1

/-! ## Claim C3 -/

/-- Claim C3: registering an instance whose name is already registered fails
with a message naming the duplicate (the registry being untouched — the
result is an error, not an updated environment), while registering two
instances under distinct fresh names succeeds and leaves both retrievable. -/
theorem define_instance_registry_spec {ι : Type} (env : Env ι) :
    (∀ nm inst i₀, dlookup nm (env.instances.getD []) = some i₀ →
       defineInstance env nm inst =
         Except.error ("Instance " ++ nm ++ " is already defined.")) ∧
    (∀ n₁ n₂ i₁ i₂, n₁ ≠ n₂ →
       dlookup n₁ (env.instances.getD []) = none →
       dlookup n₂ (env.instances.getD []) = none →
       ∃ env₁ env₂,
         defineInstance env n₁ i₁ = Except.ok env₁ ∧
         defineInstance env₁ n₂ i₂ = Except.ok env₂ ∧
         dlookup n₁ (env₂.instances.getD []) = some i₁ ∧
         dlookup n₂ (env₂.instances.getD []) = some i₂) := by
  constructor
  · intro nm inst i₀ h
    simp [defineInstance, h]
  · intro n₁ n₂ i₁ i₂ hne h₁ h₂
    refine ⟨⟨some (dictSet (env.instances.getD []) n₁ i₁), env.currentInstance, env.command⟩,
      ⟨some (dictSet (dictSet (env.instances.getD []) n₁ i₁) n₂ i₂), env.currentInstance,
        env.command⟩, ?_, ?_, ?_, ?_⟩
    · simp [defineInstance, h₁]
    · have hl : dlookup n₂ (dictSet (env.instances.getD []) n₁ i₁) = none := by
        rw [dlookup_dictSet_ne _ _ _ _ hne]
        exact h₂
      simp [defineInstance, hl]
    · simp only [Option.getD_some]
      rw [dlookup_dictSet_ne _ _ _ _ (Ne.symm hne), dlookup_dictSet_self]
    · simp only [Option.getD_some]
      rw [dlookup_dictSet_self]

/-- Claim C3 witness. -/
theorem define_instance_registry_witness :
    defineInstance (⟨some [("web", 1)], none, "deploy"⟩ : Env Nat) "web" 2 =
      Except.error ("Instance " ++ "web" ++ " is already defined.") ∧
    (∃ env₁ env₂,
       defineInstance (⟨some [("web", 1)], none, "deploy"⟩ : Env Nat) "db" 2 =
         Except.ok env₁ ∧
       defineInstance env₁ "cache" 3 = Except.ok env₂ ∧
       dlookup "db" (env₂.instances.getD []) = some 2 ∧
       dlookup "cache" (env₂.instances.getD []) = some 3) := by
  have h := define_instance_registry_spec (⟨some [("web", 1)], none, "deploy"⟩ : Env Nat)
  exact ⟨h.1 "web" 2 1 (by decide), h.2 "db" "cache" 2 3 (by decide) (by decide) (by decide)⟩

/-! ## Claim C5 -/

/-- Claim C5: with a non-empty registry, an explicit non-empty instance name
is looked up and returned regardless of the recorded current-instance value;
with no explicit name the recorded current-instance name is used; and every
unresolvable selection (no name available, or a name — explicit or recorded —
not in the registry) fails with the help message listing all known instance
names sorted together with an example invocation.  The listed names are the
registry keys in sorted order. -/
theorem get_instance_selection_spec {ι : Type} (env : Env ι)
    (hne : env.instances.getD [] ≠ []) :
    (∀ (s : String) (i : ι) (cur : Option String), s ≠ "" →
       dlookup s (env.instances.getD []) = some i →
       getInstance { env with currentInstance := cur } (some s) = Except.ok i) ∧
    (∀ (c : String) (i : ι), env.currentInstance = some c →
       dlookup c (env.instances.getD []) = some i →
       getInstance env none = Except.ok i) ∧
    (∀ (s : String) (cur : Option String), s ≠ "" →
       dlookup s (env.instances.getD []) = none →
       getInstance { env with currentInstance := cur } (some s) =
         Except.error (helpMsg env)) ∧
    (env.currentInstance = none →
       getInstance env none = Except.error (helpMsg env)) ∧
    (∀ c : String, env.currentInstance = some c →
       dlookup c (env.instances.getD []) = none →
       getInstance env none = Except.error (helpMsg env)) ∧
    List.Sorted (fun a b => a ≤ b) (knownNames env) ∧
    List.Perm (knownNames env) ((env.instances.getD []).map Prod.fst) := by
  have hkn : knownNames env ≠ [] := by
    apply sortStrings_ne_nil
    intro hmap
    exact hne (List.map_eq_nil_iff.mp hmap)
  refine ⟨?_, ?_, ?_, ?_, ?_, sortStrings_sorted _, sortStrings_perm _⟩
  · intro s i cur hs hlk
    simp [getInstance, knownNames, helpMsg] at hkn ⊢
    simp [hkn, hs, hlk]
  · intro c i hc hlk
    simp [getInstance, knownNames, helpMsg] at hkn ⊢
    simp [hkn, hc, hlk]
  · intro s cur hs hlk
    simp [getInstance, knownNames, helpMsg] at hkn ⊢
    simp [hkn, hs, hlk]
  · intro hc
    simp [getInstance, knownNames, helpMsg] at hkn ⊢
    simp [hkn, hc]
  · intro c hc hlk
    simp [getInstance, knownNames, helpMsg] at hkn ⊢
    simp [hkn, hc, hlk]

/-- Claim C5 witness: a single registered instance `prod`, no prior
selection; selecting nothing fails with the help message suggesting `prod`,
while selecting `prod` explicitly succeeds even with a stale recorded
value. -/
theorem get_instance_selection_witness :
    getInstance (⟨some [("prod", 7)], none, "deploy"⟩ : Env Nat) none =
      Except.error "Please specify an instance (prod), e.g.\n\n  fab prod deploy" ∧
    getInstance (⟨some [("prod", 7)], some "ignored", "deploy"⟩ : Env Nat) (some "prod") =
      Except.ok 7 := by
  have h := get_instance_selection_spec (⟨some [("prod", 7)], none, "deploy"⟩ : Env Nat)
    (by decide)
  exact ⟨h.2.2.2.1 rfl, h.1 "prod" 7 (some "ignored") (by decide) (by decide)⟩

/-! ## Claim C10 -/

/-- Claim C10: `Instance.__init__` applies the keyword update after the
positional assignments, so a `name` or `host` keyword overrides the
positional value; absent such keywords the attributes equal the positional
arguments, and every extra keyword becomes an attribute with its supplied
value. -/
theorem instance_init_kwargs_spec {β : Type} (name host : β)
    (kwargs : List (String × β)) (hk : NodupKeys kwargs) :
    (∀ v, dlookup "name" kwargs = some v →
       dlookup "name" (instanceInit name host kwargs) = some v) ∧
    (dlookup "name" kwargs = none →
       dlookup "name" (instanceInit name host kwargs) = some name) ∧
    (∀ v, dlookup "host" kwargs = some v →
       dlookup "host" (instanceInit name host kwargs) = some v) ∧
    (dlookup "host" kwargs = none →
       dlookup "host" (instanceInit name host kwargs) = some host) ∧
    (∀ k v, dlookup k kwargs = some v →
       dlookup k (instanceInit name host kwargs) = some v) := by
  have base : ∀ k v, dlookup k kwargs = some v →
      dlookup k (instanceInit name host kwargs) = some v := by
    intro k v h
    exact dlookup_dictUpdate_mem _ hk (dlookup_some_mem h)
  have hbase_name : dlookup "name" (dictSet (dictSet [] "name" name) "host" host) =
      some name := by
    simp [dictSet, dlookup]
  have hbase_host : dlookup "host" (dictSet (dictSet [] "name" name) "host" host) =
      some host := by
    simp [dictSet, dlookup]
  refine ⟨fun v h => base _ _ h, ?_, fun v h => base _ _ h, ?_, base⟩
  · intro h
    unfold instanceInit
    rw [dlookup_dictUpdate_not_mem _ _ _ ((dlookup_eq_none _ _).mp h)]
    exact hbase_name
  · intro h
    unfold instanceInit
    rw [dlookup_dictUpdate_not_mem _ _ _ ((dlookup_eq_none _ _).mp h)]
    exact hbase_host

/-- Claim C10 witness: a `name` keyword overrides the positional name, the
positional host survives, and the extra keyword becomes an attribute. -/
theorem instance_init_kwargs_witness :
    dlookup "name" (instanceInit "pos-name" "pos-host"
      [("name", "override"), ("home", "/opt/x")]) = some "override" ∧
    dlookup "host" (instanceInit "pos-name" "pos-host"
      [("name", "override"), ("home", "/opt/x")]) = some "pos-host" ∧
    dlookup "home" (instanceInit "pos-name" "pos-host"
      [("name", "override"), ("home", "/opt/x")]) = some "/opt/x" := by
  have h := instance_init_kwargs_spec "pos-name" "pos-host"
    [("name", "override"), ("home", "/opt/x")] (by decide)
  exact ⟨h.1 "override" (by decide), h.2.2.2.1 (by decide),
    h.2.2.2.2 "home" "/opt/x" (by decide)⟩

/-! ## Claim C4: loop lemmas for the generated constructor -/

theorem wpLoop1_some {α : Type} (kw : List (String × α)) (params : List (String × Option α))
    (k : String) (h : firstReqMissing kw params = some k) (d : List (String × Option α)) :
    wpLoop1 kw params d = Except.error (reqMsg k) := by
  induction params generalizing d with
  | nil => simp [firstReqMissing] at h
  | cons p rest ih =>
    obtain ⟨k0, v0⟩ := p
    by_cases hc : (v0.isNone && (dlookup k0 kw).isNone) = true
    · simp only [firstReqMissing, if_pos hc, Option.some.injEq] at h
      subst h
      simp [wpLoop1, hc]
    · simp only [firstReqMissing, if_neg hc] at h
      simp only [wpLoop1, if_neg hc]
      exact ih h _

theorem wpLoop1_none {α : Type} (kw : List (String × α)) (params : List (String × Option α))
    (h : firstReqMissing kw params = none) (d : List (String × Option α)) :
    wpLoop1 kw params d = Except.ok (dictUpdate d params) := by
  induction params generalizing d with
  | nil => simp [wpLoop1, dictUpdate]
  | cons p rest ih =>
    obtain ⟨k0, v0⟩ := p
    by_cases hc : (v0.isNone && (dlookup k0 kw).isNone) = true
    · simp [firstReqMissing, hc] at h
    · simp only [firstReqMissing, if_neg hc] at h
      simp only [wpLoop1, if_neg hc]
      rw [ih h]
      rfl

theorem firstReqMissing_some {α : Type} (kw : List (String × α))
    (params : List (String × Option α)) (k : String)
    (h : firstReqMissing kw params = some k) :
    (k, (none : Option α)) ∈ params ∧ dlookup k kw = none := by
  induction params with
  | nil => simp [firstReqMissing] at h
  | cons p rest ih =>
    obtain ⟨k0, v0⟩ := p
    by_cases hc : (v0.isNone && (dlookup k0 kw).isNone) = true
    · simp only [firstReqMissing, if_pos hc, Option.some.injEq] at h
      subst h
      rw [Bool.and_eq_true] at hc
      obtain ⟨h1, h2⟩ := hc
      rw [Option.isNone_iff_eq_none] at h1 h2
      subst h1
      exact ⟨List.mem_cons_self _ _, h2⟩
    · simp only [firstReqMissing, if_neg hc] at h
      obtain ⟨hm, hl⟩ := ih h
      exact ⟨List.mem_cons_of_mem _ hm, hl⟩

theorem wpLoop2_some {α : Type} (params : List (String × Option α))
    (kw : List (String × α)) (k : String)
    (h : firstUnknown params kw = some k) (d : List (String × Option α)) :
    wpLoop2 params kw d = Except.error (unexpMsg k) := by
  induction kw generalizing d with
  | nil => simp [firstUnknown] at h
  | cons p rest ih =>
    obtain ⟨k0, v0⟩ := p
    by_cases hc : (dlookup k0 params).isNone = true
    · simp only [firstUnknown, if_pos hc, Option.some.injEq] at h
      subst h
      simp [wpLoop2, hc]
    · simp only [firstUnknown, if_neg hc] at h
      simp only [wpLoop2, if_neg hc]
      exact ih h _

theorem wpLoop2_none {α : Type} (params : List (String × Option α))
    (kw : List (String × α)) (h : firstUnknown params kw = none)
    (d : List (String × Option α)) :
    wpLoop2 params kw d = Except.ok (dictUpdate d (kwLift kw)) := by
  induction kw generalizing d with
  | nil => simp [wpLoop2, dictUpdate, kwLift]
  | cons p rest ih =>
    obtain ⟨k0, v0⟩ := p
    by_cases hc : (dlookup k0 params).isNone = true
    · simp [firstUnknown, hc] at h
    · simp only [firstUnknown, if_neg hc] at h
      simp only [wpLoop2, if_neg hc]
      rw [ih h]
      rfl

theorem firstUnknown_some {α : Type} (params : List (String × Option α))
    (kw : List (String × α)) (k : String)
    (h : firstUnknown params kw = some k) :
    dlookup k params = none ∧ k ∈ kw.map Prod.fst := by
  induction kw with
  | nil => simp [firstUnknown] at h
  | cons p rest ih =>
    obtain ⟨k0, v0⟩ := p
    by_cases hc : (dlookup k0 params).isNone = true
    · simp only [firstUnknown, if_pos hc, Option.some.injEq] at h
      subst h
      rw [Option.isNone_iff_eq_none] at hc
      exact ⟨hc, by simp⟩
    · simp only [firstUnknown, if_neg hc] at h
      obtain ⟨hl, hm⟩ := ih h
      exact ⟨hl, by simp [hm]⟩

theorem wp_attr {α : Type} (params : List (String × Option α)) (kw : List (String × α))
    (hp : NodupKeys params) (hk : NodupKeys kw) (d0 : List (String × Option α))
    (k : String) (spec : Option α) (hmem : (k, spec) ∈ params) :
    dlookup k (dictUpdate (dictUpdate d0 params) (kwLift kw)) =
      some (match dlookup k kw with | some v => some v | none => spec) := by
  cases hkw : dlookup k kw with
  | some v =>
    have hmem' : (k, some v) ∈ kwLift kw := by
      simp only [kwLift, List.mem_map]
      exact ⟨(k, v), dlookup_some_mem hkw, rfl⟩
    have hnk : NodupKeys (kwLift kw) := by
      unfold NodupKeys kwLift
      simpa [List.map_map, Function.comp] using hk
    rw [dlookup_dictUpdate_mem _ hnk hmem']
  | none =>
    have hnot : k ∉ (kwLift kw).map Prod.fst := by
      have hn : k ∉ kw.map Prod.fst := (dlookup_eq_none _ _).mp hkw
      simpa [kwLift, List.map_map, Function.comp] using hn
    rw [dlookup_dictUpdate_not_mem _ _ _ hnot]
    rw [dlookup_dictUpdate_mem _ hp hmem]

/-- Claim C4: the constructor generated by `with_params` gives every declared
parameter the caller-supplied keyword value if present and the declared
default otherwise; a required parameter with no supplied value makes
construction fail with a `TypeError` naming a missing required parameter (the
first in declaration order); and — all required parameters supplied — a
keyword not among the declared parameters makes construction fail with a
`TypeError` naming that unexpected argument. -/
theorem with_params_constructor_spec {α : Type} (params : List (String × Option α))
    (name host : α) (kw : List (String × α))
    (hp : NodupKeys params) (hk : NodupKeys kw) :
    (firstReqMissing kw params = none → firstUnknown params kw = none →
       ∃ d, withParamsInit params name host kw = Except.ok d ∧
         ∀ k spec, (k, spec) ∈ params →
           dlookup k d =
             some (match dlookup k kw with | some v => some v | none => spec)) ∧
    (∀ k, firstReqMissing kw params = some k →
       withParamsInit params name host kw = Except.error (reqMsg k) ∧
       (k, (none : Option α)) ∈ params ∧ dlookup k kw = none) ∧
    (∀ k, firstReqMissing kw params = none → firstUnknown params kw = some k →
       withParamsInit params name host kw = Except.error (unexpMsg k) ∧
       dlookup k params = none ∧ k ∈ kw.map Prod.fst) := by
  refine ⟨?_, ?_, ?_⟩
  · intro h1 h2
    refine ⟨dictUpdate (dictUpdate (instanceInit (some name) (some host) []) params)
      (kwLift kw), ?_, ?_⟩
    · unfold withParamsInit
      rw [wpLoop1_none kw params h1]
      exact wpLoop2_none params kw h2 _
    · intro k spec hmem
      exact wp_attr params kw hp hk _ k spec hmem
  · intro k h
    have hmem := firstReqMissing_some kw params k h
    refine ⟨?_, hmem.1, hmem.2⟩
    unfold withParamsInit
    rw [wpLoop1_some kw params k h]
  · intro k h1 h2
    have hinfo := firstUnknown_some params kw k h2
    refine ⟨?_, hinfo.1, hinfo.2⟩
    unfold withParamsInit
    rw [wpLoop1_none kw params h1]
    exact wpLoop2_some params kw k h2 _

/-- Claim C4 witness: the spec scenario — required `region`, optional `tier`
defaulting to `standard`: constructing without `region` fails naming it;
constructing with `region=eu` succeeds with `tier = standard`; constructing
with an extra keyword `zone` fails naming it. -/
theorem with_params_constructor_witness :
    withParamsInit [("region", (none : Option String)), ("tier", some "standard")]
      "pn" "ph" [] = Except.error (reqMsg "region") ∧
    (∃ d, withParamsInit [("region", (none : Option String)), ("tier", some "standard")]
        "pn" "ph" [("region", "eu")] = Except.ok d ∧
      dlookup "tier" d = some (some "standard") ∧
      dlookup "region" d = some (some "eu")) ∧
    withParamsInit [("region", (none : Option String)), ("tier", some "standard")]
      "pn" "ph" [("region", "eu"), ("zone", "x")] = Except.error (unexpMsg "zone") := by
  refine ⟨?_, ?_, ?_⟩
  · exact ((with_params_constructor_spec [("region", none), ("tier", some "standard")]
      "pn" "ph" [] (by decide) (by decide)).2.1 "region" (by decide)).1
  · obtain ⟨d, hd, hall⟩ := (with_params_constructor_spec
      [("region", none), ("tier", some "standard")] "pn" "ph" [("region", "eu")]
      (by decide) (by decide)).1 (by decide) (by decide)
    refine ⟨d, hd, ?_, ?_⟩
    · have h := hall "tier" (some "standard") (by decide)
      simpa using h
    · have h := hall "region" none (by decide)
      simpa using h
  · exact ((with_params_constructor_spec [("region", none), ("tier", some "standard")]
      "pn" "ph" [("region", "eu"), ("zone", "x")] (by decide) (by decide)).2.2 "zone"
      (by decide) (by decide)).1

/-! ## Claim C8 -/

/-- Claim C8: `changelog` issues its remote command exactly when the
changelog script exists or the caller passed `optional=False`; when the
script is absent and `optional` is true it performs no remote action at all;
otherwise it runs the script as root, with ` -a` appended exactly when
`append` is true, and with the (optionally context-formatted) message quoted
as one shell argument. -/
theorem changelog_command_spec (w : ClWorld) (m fm : String)
    (ctx : Option (List (String × String))) (append optional : Bool)
    (hf : fmtMsg m ctx = Except.ok fm) :
    (w.scriptExists = false → optional = true →
       changelog w m ctx append optional = Except.ok []) ∧
    ((w.scriptExists = true ∨ optional = false) →
       changelog w m ctx append optional =
         Except.ok [Cmd.sudoAs "root"
           ((if append then "new-changelog-entry" ++ " -a" else "new-changelog-entry") ++
             " " ++ shQuote fm)]) ∧
    (∀ tr, changelog w m ctx append optional = Except.ok tr →
       (tr ≠ [] ↔ (w.scriptExists = true ∨ optional = false))) := by
  refine ⟨?_, ?_, ?_⟩
  · intro h1 h2
    simp [changelog, h1, h2]
  · intro h
    have hcond : (w.scriptExists || !optional) = true := by
      rcases h with h | h <;> simp [h]
    simp [changelog, hcond, hf]
  · intro tr htr
    cases hse : w.scriptExists with
    | true =>
      have hcond : (w.scriptExists || !optional) = true := by simp [hse]
      simp only [changelog, hcond, if_true, hf] at htr
      injection htr with htr
      subst htr
      simp [hse]
    | false =>
      cases hop : optional with
      | false =>
        have hcond : (w.scriptExists || !optional) = true := by simp [hop]
        simp only [changelog, hcond, if_true, hf] at htr
        injection htr with htr
        subst htr
        simp [hop]
      | true =>
        have hcond : (w.scriptExists || !optional) = false := by simp [hse, hop]
        simp only [changelog, hcond, Bool.false_eq_true, if_false] at htr
        injection htr with htr
        subst htr
        simp [hse, hop]

/-- Claim C8 witness: absent script with `optional` left true skips silently;
present script with `append=True` runs the root command with the `-a` flag
and the quoted message. -/
theorem changelog_command_witness :
    changelog ⟨false⟩ "deployed" none false true = Except.ok [] ∧
    changelog ⟨true⟩ "deployed x" none true true =
      Except.ok [Cmd.sudoAs "root"
        ((if true then "new-changelog-entry" ++ " -a" else "new-changelog-entry") ++
          " " ++ shQuote "deployed x")] := by
  have h1 := changelog_command_spec ⟨false⟩ "deployed" "deployed" none false true rfl
  have h2 := changelog_command_spec ⟨true⟩ "deployed x" "deployed x" none true true rfl
  exact ⟨h1.1 rfl rfl, h2.2.1 (Or.inl rfl)⟩

end PovFabric
